import Mathlib

/-!
Verification development for the go-netmagis client library.

Go strings are represented as `List Char`.  Go `map[string]T` values are
represented as association lists with overwrite-on-insert semantics
(`alUpd` / `alGet`).  The HTTP transport, the YAML configuration loader and
the HTML parser are external collaborators: functions that consume a parsed
HTML document take the extracted node data (cell texts, attribute lists)
as explicit arguments, and functions that perform network calls take the
network outcome as an explicit oracle argument.  A Go runtime panic
(failed type assertion, out-of-range index) is modelled by an `Option`
result being `none`.  `NetmagisError` values are represented by their
message strings.
-/

namespace Netmagis

/-- Convert a Lean string literal to the `List Char` representation used
for Go strings throughout this development. -/
def gs (s : String) : List Char := s.data

/-- The apostrophe character. -/
def aposChar : Char := Char.ofNat 39

/-- The double-quote character. -/
def quoteChar : Char := Char.ofNat 34

/-- The newline character. -/
def nlChar : Char := Char.ofNat 10

/-- The tab character. -/
def tabChar : Char := Char.ofNat 9

/-- Characters treated as space by Go `strings.TrimSpace` (via
`unicode.IsSpace`) for the Latin-1 range. -/
def goIsSpace (c : Char) : Bool :=
  c = ' ' || c = Char.ofNat 9 || c = Char.ofNat 10 || c = Char.ofNat 11 ||
  c = Char.ofNat 12 || c = Char.ofNat 13 || c = Char.ofNat 133 || c = Char.ofNat 160

/-- Go `strings.TrimSpace`. -/
def goTrimSpace (s : List Char) : List Char :=
  ((s.dropWhile goIsSpace).reverse.dropWhile goIsSpace).reverse

/-- `scanAny p s` holds when `p` accepts some suffix of `s`: the generic
"match at any position" driver shared by the unanchored pattern matchers. -/
def scanAny (p : List Char → Bool) : List Char → Bool
  | [] => p []
  | c :: t => p (c :: t) || scanAny p t

/-- Go `strings.Contains s needle`. -/
def containsSub (needle : List Char) (s : List Char) : Bool :=
  scanAny (fun r => needle.isPrefixOf r) s

/-- Lookup in a Go map represented as an association list. -/
def alGet {α : Type} (k : List Char) : List (List Char × α) → Option α
  | [] => none
  | (k2, v) :: t => if k2 = k then some v else alGet k t

/-- Insert/overwrite in a Go map represented as an association list. -/
def alUpd {α : Type} (k : List Char) (v : α) : List (List Char × α) → List (List Char × α)
  | [] => [(k, v)]
  | (k2, w) :: t => if k2 = k then (k, v) :: t else (k2, w) :: alUpd k v t

/-- Go `delete(m, k)` on the association-list representation. -/
def alDel {α : Type} (k : List Char) (l : List (List Char × α)) : List (List Char × α) :=
  l.filter (fun p => decide (p.1 ≠ k))

/-
Pattern matchers for the compiled regular expressions of src/netmagis.go:

  errorRegexp          = `<blockquote><FONT COLOR="#FF0000">(.*)</FONT></blockquote>`
  hostNotFoundRegexp   = `String '[^']*' not found`
  searchRegexpValidate = `is a.* in view `

`.` does not match a newline; `FindSubmatch` is leftmost, with greedy `(.*)`.
-/

/-- The opening literal of `errorRegexp`: `<blockquote><FONT COLOR="#FF0000">`. -/
def bqOpen : List Char :=
  gs "<blockquote><FONT COLOR=" ++ [quoteChar] ++ gs "#FF0000" ++ [quoteChar] ++ gs ">"

/-- The closing literal of `errorRegexp`: `</FONT></blockquote>`. -/
def bqClose : List Char := gs "</FONT></blockquote>"

/-- Greedy `(.*)` followed by `bqClose`: returns the longest newline-free
prefix `g` of the input such that `bqClose` is a prefix of the rest, or
`none` when no such decomposition exists. -/
def greedyGroup : List Char → Option (List Char)
  | [] => none
  | c :: t =>
    match (if c = nlChar then none else Option.map (fun g => c :: g) (greedyGroup t)) with
    | some g => some g
    | none => if bqClose.isPrefixOf (c :: t) then some [] else none

/-- `errorRegexp.FindSubmatch`: the submatch group of the leftmost match,
or `none` when the pattern does not match. -/
def extractError : List Char → Option (List Char)
  | [] => none
  | c :: t =>
    if bqOpen.isPrefixOf (c :: t) then
      match greedyGroup ((c :: t).drop bqOpen.length) with
      | some g => some g
      | none => extractError t
    else extractError t

/-- Go `strings.Trim s "\""`: strip leading and trailing quote characters. -/
def trimQuotes (s : List Char) : List Char :=
  ((s.dropWhile (fun c => c = quoteChar)).reverse.dropWhile (fun c => c = quoteChar)).reverse

/-- `[^']*` followed by the literal `close`, for the two apostrophe-delimited
patterns (`hostNotFoundRegexp`, and GetHost's name-does-not-exist pattern). -/
def nonAposThen (close : List Char) : List Char → Bool
  | [] => close.isPrefixOf []
  | c :: t => close.isPrefixOf (c :: t) || (if c = aposChar then false else nonAposThen close t)

/-- `hostNotFoundRegexp.MatchString`: `String '[^']*' not found`. -/
def hostNotFoundMatch (s : List Char) : Bool :=
  scanAny (fun r =>
    (gs "String " ++ [aposChar]).isPrefixOf r &&
    nonAposThen (aposChar :: gs " not found") (r.drop 8)) s

/-- GetHost's local pattern: `Name '[^']*' does not exist`. -/
def nameNotExistMatch (s : List Char) : Bool :=
  scanAny (fun r =>
    (gs "Name " ++ [aposChar]).isPrefixOf r &&
    nonAposThen (aposChar :: gs " does not exist") (r.drop 6)) s

/-- `.*` (newline-free) followed by the literal `close`. -/
def dotStarThen (close : List Char) : List Char → Bool
  | [] => close.isPrefixOf []
  | c :: t => close.isPrefixOf (c :: t) || (c ≠ nlChar && dotStarThen close t)

/-- `searchRegexpValidate.MatchString`: `is a.* in view `. -/
def searchValidateMatch (s : List Char) : Bool :=
  scanAny (fun r => (gs "is a").isPrefixOf r && dotStarThen (gs " in view ") (r.drop 4)) s

/-- Outcome of a Go function returning `(T, error)`: either an error
carrying its message string, or a success value. -/
inductive GoRes (α : Type) where
  | err (msg : List Char)
  | ok (v : α)
deriving DecidableEq

/-- The fixed server-side error banner marker checked by `Call`. -/
def errBanner : List Char := gs "<h2>Error!</h2>"

/--
`NetmagisClient.Call`, classification part (src/netmagis.go lines 394-416).
The HTTP POST leg is the caller's oracle; this function classifies the
response body.  `none` models the runtime panic of indexing `[1]` into the
`nil` result of `FindSubmatch` when the banner is present but `errorRegexp`
does not match.
-/
def Call (body : List Char) (validateFunc : List Char → Bool) :
    Option (GoRes (List Char)) :=
  if containsSub errBanner body then
    match extractError body with
    | some m => some (.err (gs "NetmagisError: " ++ trimQuotes m))
    | none => none
  else if validateFunc body then some (.ok body)
  else some (.err (gs "ValidationError: unexpected output (raw HTML answer for debug): " ++ body))

/-
FQDN handling (src/netmagis.go lines 248, 266-268, 274-277):

  fqdnRegexp = `^[0-9a-zA-Z-]{2,63}(\.[a-zA-Z-]{2,63})+\.[a-zA-Z]{2,63}$`

  func splitFqdn(fqdn string) (string, string) {
      res := strings.SplitN(fqdn, ".", 2)
      return res[0], res[1]
  }

Every character class of the pattern excludes the dot, and each repetition
is followed by a literal dot or the end anchor, so the pattern matches a
string exactly when its dot-separated components satisfy the per-component
class and length bounds (first component `[0-9a-zA-Z-]{2,63}`, then one or
more middle components `[a-zA-Z-]{2,63}`, then a final component
`[a-zA-Z]{2,63}`).  `dotSplit` is that dot decomposition.
-/

/-- Split a string at every dot (the dot decomposition used to state the
anchored `fqdnRegexp`; `dotSplit s` never returns `[]`). -/
def dotSplit : List Char → List (List Char)
  | [] => [[]]
  | c :: t =>
    if c = '.' then [] :: dotSplit t
    else
      match dotSplit t with
      | h :: r => (c :: h) :: r
      | [] => [[c]]

/-- Rejoin a dot decomposition with dots. -/
def joinDots : List (List Char) → List Char
  | [] => []
  | [p] => p
  | p :: q :: r => p ++ '.' :: joinDots (q :: r)

/-- Go `strings.SplitN(s, ".", 2)`: split at the first dot.  `none` models
the out-of-range panic of `res[1]` when the string contains no dot. -/
def breakDot : List Char → Option (List Char × List Char)
  | [] => none
  | c :: t =>
    if c = '.' then some ([], t)
    else (breakDot t).map (fun pr => (c :: pr.1, pr.2))

/-- The class `[0-9a-zA-Z-]` of the first FQDN component. -/
def isFirstClass (c : Char) : Bool := c.isDigit || c.isAlpha || c = '-'

/-- The class `[a-zA-Z-]` of the middle FQDN components. -/
def isMidClass (c : Char) : Bool := c.isAlpha || c = '-'

/-- First-component check: `[0-9a-zA-Z-]{2,63}`. -/
def labelOkFirst (p : List Char) : Bool :=
  decide (2 ≤ p.length) && decide (p.length ≤ 63) && p.all isFirstClass

/-- Middle-component check: `[a-zA-Z-]{2,63}`. -/
def labelOkMid (p : List Char) : Bool :=
  decide (2 ≤ p.length) && decide (p.length ≤ 63) && p.all isMidClass

/-- Final-component check: `[a-zA-Z]{2,63}`. -/
def labelOkLast (p : List Char) : Bool :=
  decide (2 ≤ p.length) && decide (p.length ≤ 63) && p.all Char.isAlpha

/-- `fqdnRegexp.Match` / `checkFqdn`. -/
def checkFqdn (s : List Char) : Bool :=
  match dotSplit s with
  | [] => false
  | p0 :: rest =>
    labelOkFirst p0 && decide (2 ≤ rest.length) &&
    rest.dropLast.all labelOkMid &&
    (match rest.getLast? with
     | some pl => labelOkLast pl
     | none => false)

/-
Go `strconv.Atoi`, with its error discarded as in the `ttl` coercion of
`Search` (src/netmagis.go line 473): a syntactically invalid string yields
0 (the zero value returned alongside the error), and a syntactically valid
value outside the int64 range yields the clamped extreme value that
`ParseInt` returns alongside its range error.
-/

/-- Largest int64 value. -/
def maxInt64 : Int := 9223372036854775807

/-- Smallest int64 value. -/
def minInt64 : Int := -9223372036854775808

/-- Clamp to the int64 range, as `strconv.ParseInt` does on range error. -/
def clamp64 (v : Int) : Int :=
  if v > maxInt64 then maxInt64 else if v < minInt64 then minInt64 else v

/-- Strip the optional sign accepted by `strconv.Atoi`. -/
def atoiSign : List Char → Int × List Char
  | '+' :: t => (1, t)
  | '-' :: t => (-1, t)
  | t => (1, t)

/-- Whether a string is a syntactically valid `strconv.Atoi` input:
an optional sign followed by one or more decimal digits. -/
def atoiWellFormed (s : List Char) : Bool :=
  let ds := (atoiSign s).2
  !ds.isEmpty && ds.all Char.isDigit

/-- Numeric value of a digit string. -/
def decimalNat (ds : List Char) : Nat :=
  ds.foldl (fun a c => a * 10 + (c.toNat - 48)) 0

/-- `strconv.Atoi` with the error discarded. -/
def goAtoi (s : List Char) : Int :=
  if atoiWellFormed s then clamp64 ((atoiSign s).1 * decimalNat (atoiSign s).2) else 0

/-
NetmagisClient.Search, table-scrape decoding (src/netmagis.go lines 418-488).
The queried cells are the texts of the `//td[@class='tab-text10']` nodes of
the parsed body, supplied by the HTML-parser collaborator.
-/

/-- A value stored in the `map[string]interface{}` result of `Search`. -/
inductive GoVal where
  | strV (s : List Char)
  | boolV (b : Bool)
  | intV (n : Int)
  | listV (l : List (List Char))
deriving DecidableEq

/-- Result map of `Search` (Go `map[string]interface{}`). -/
abbrev HostMap := List (List Char × GoVal)

/-- `nodeText`: `strings.TrimSpace(htmlquery.InnerText(node))`, applied to
the raw cell text. -/
def nodeText (s : List Char) : List Char := goTrimSpace s

/-- Field-key normalization of an even-indexed cell: trim, drop `(` and
`)`, replace spaces with underscores, lower-case. -/
def normalizeField (raw : List Char) : List Char :=
  ((((nodeText raw).filter (fun c => decide (c ≠ '('))).filter
      (fun c => decide (c ≠ ')'))).map (fun c => if c = ' ' then '_' else c)).map Char.toLower

/-- Per-field value coercion of the `switch field` statement in `Search`
(lines 463-479).  The `smtp_emit_right` lookup in the literal Go map
`{"Yes": true, "No": false, "": false}` yields the zero value `false` for
any other key. -/
def coerceValue (field : List Char) (value : List Char) : GoVal :=
  if field = gs "smtp_emit_right" then .boolV (decide (value = gs "Yes"))
  else if field = gs "dhcp_profile" then
    .strV (if value = gs "No profile" then [] else value)
  else if field = gs "ttl" then .intV (goAtoi value)
  else if field = gs "aliases" || field = gs "allowed_groups" then
    .listV (value.splitOn ' ')
  else .strV value

/-- The pairwise walk over the alternating label/value cell sequence:
even-indexed cells become normalized field keys, odd-indexed cells are
coerced and stored; a trailing label with no value stores nothing. -/
def decodeCells : List (List Char) → HostMap → HostMap
  | f :: v :: rest, m =>
    decodeCells rest (alUpd (normalizeField f) (coerceValue (normalizeField f) (nodeText v)) m)
  | _, m => m

/-- The `is_alias` computation `host != hostParams["name"]`: comparing the
queried string with the stored `interface{}` value is `false` exactly when
`"name"` holds an equal string (a missing key is the `nil` interface and
compares unequal). -/
def searchIsAlias (host : List Char) (m : HostMap) : Bool :=
  match alGet (gs "name") m with
  | some (.strV n) => decide (host ≠ n)
  | some _ => true
  | none => true

/-- Decode a full search-results cell sequence, then set `is_alias`. -/
def searchDecode (host : List Char) (cells : List (List Char)) : HostMap :=
  let m := decodeCells cells []
  alUpd (gs "is_alias") (.boolV (searchIsAlias host m)) m

/-- The success predicate `Search` passes to `Call`. -/
def searchCheckFunc (body : List Char) : Bool :=
  searchValidateMatch body || hostNotFoundMatch body

/-- Input-validation failure message of `Search`. -/
def searchBadHostMsg (host : List Char) : List Char :=
  gs "host " ++ [aposChar] ++ host ++ [aposChar] ++ gs " is not a FQDN or and IP address"

/--
`NetmagisClient.Search` (src/netmagis.go lines 418-488).  `ipOk` is the
outcome of `checkIp` (the external `net.ParseIP` collaborator); `body` is
the response body delivered by the transport to `Call`; `cells` are the
table-cell texts the HTML-parser collaborator extracts from that body.
-/
def Search (ipOk : Bool) (host body : List Char) (cells : List (List Char)) :
    Option (GoRes (Option HostMap)) :=
  if !ipOk && !checkFqdn host then some (.err (searchBadHostMsg host))
  else
    match Call body searchCheckFunc with
    | none => none
    | some (.err e) => some (.err e)
    | some (.ok b) =>
      if hostNotFoundMatch b then some (.ok none)
      else some (.ok (some (searchDecode host cells)))

/-
NetmagisClient.GetHost, form-scrape decoding (src/netmagis.go lines
491-564).  The HTML-parser collaborator supplies, for the parsed body, the
attribute lists of the `//input` nodes and, for each `//select` node, its
attribute list and the attribute lists of its `//option` descendants, in
document order.
-/

/-- The ordered attribute list of an HTML node (key/value pairs). -/
abbrev AttrList := List (List Char × List Char)

/-- String-valued result map of `GetHost` and a form payload. -/
abbrev FormMap := List (List Char × List Char)

/-- `htmlquery.SelectAttr node k`: value of the first attribute named `k`,
or the empty string. -/
def selAttr (attrs : AttrList) (k : List Char) : List Char :=
  match attrs with
  | [] => []
  | (k2, v) :: t => if k2 = k then v else selAttr t k

/-- The checked-state test of line 533:
`len(node.Attr) == 4 && node.Attr[3].Key == "checked"`. -/
def checkedCond : AttrList → Bool
  | [_, _, _, a] => decide (a.1 = gs "checked")
  | _ => false

/-- Whether an attribute of the given key is present at all (the notion of
"carrying a marker" used by the specification's wording). -/
def hasAttrKey (k : List Char) (attrs : AttrList) : Bool :=
  attrs.any (fun a => decide (a.1 = k))

/-- Process one `//input` node (lines 523-541). -/
def procInput (m : FormMap) (attrs : AttrList) : FormMap :=
  let nm := selAttr attrs (gs "name")
  if nm = [] || nm = gs "action" || nm = gs "confirm" then m
  else
    let v :=
      if nm = gs "sendsmtp" then (if checkedCond attrs then gs "1" else gs "0")
      else selAttr attrs (gs "value")
    alUpd nm v m

/-- The selected-state test of line 551:
`len(o.Attr) == 2 && o.Attr[1].Key == "selected"`. -/
def optSelected : AttrList → Bool
  | [_, a] => decide (a.1 = gs "selected")
  | _ => false

/-- Scan the options of a select for the first one passing `optSelected`
(the loop of lines 548-556, which breaks at the first hit) and return its
`value` attribute. -/
def firstSelected : List AttrList → Option (List Char)
  | [] => none
  | o :: t => if optSelected o then some (selAttr o (gs "value")) else firstSelected t

/-- A `//select` node: its own attributes and its options' attributes. -/
structure SelNode where
  attrs : AttrList
  opts : List AttrList
deriving DecidableEq

/-- Process one `//select` node (lines 544-561). -/
def procSelect (m : FormMap) (s : SelNode) : FormMap :=
  let nm := selAttr s.attrs (gs "name")
  match firstSelected s.opts with
  | some v => alUpd nm v m
  | none => if nm = gs "iddhcpprof" then alUpd nm (gs "0") m else m

/-- Full form-scrape decoding: all inputs, then all selects. -/
def getHostDecode (inputs : List AttrList) (selects : List SelNode) : FormMap :=
  selects.foldl procSelect (inputs.foldl procInput [])

/--
`NetmagisClient.GetHost` (src/netmagis.go lines 491-564).  `body` is the
`/mod` response body delivered to `Call` (whose success predicate is
constantly true); `inputs` and `selects` are the node data the HTML-parser
collaborator extracts from that body.
-/
def GetHost (fqdn body : List Char) (inputs : List AttrList) (selects : List SelNode) :
    Option (GoRes (Option FormMap)) :=
  match breakDot fqdn with
  | none => none
  | some _ =>
    match Call body (fun _ => true) with
    | none => none
    | some (.err e) =>
      if nameNotExistMatch e then some (.ok none) else some (.err e)
    | some (.ok _) => some (.ok (some (getHostDecode inputs selects)))

/-
NetmagisClient.AddHost (src/netmagis.go lines 566-615) and the shared
helpers `try`, `convertInt`, `convertBool` (lines 257-298).  The
`params map[string]interface{}` argument is an association list of typed
values; a failed Go type assertion is a panic, modelled by `none`.
-/

/-- A value of the `map[string]interface{}` params argument. -/
inductive GoParam where
  | strP (s : List Char)
  | intP (n : Int)
  | boolP (b : Bool)
deriving DecidableEq

/-- Params map. -/
abbrev Params := List (List Char × GoParam)

/-- `try(params, key, default)`: the stored value, or the default. -/
def tryParam (params : Params) (k : List Char) (d : GoParam) : GoParam :=
  match alGet k params with
  | some v => v
  | none => d

/-- A `.(string)` type assertion. -/
def asStringP : GoParam → Option (List Char)
  | .strP s => some s
  | _ => none

/-- A `.(bool)` type assertion. -/
def asBoolP : GoParam → Option Bool
  | .boolP b => some b
  | _ => none

/-- Decimal digits of a natural number (`strconv.Itoa` core). -/
def natDecimalAux : Nat → Nat → List Char → List Char
  | 0, _, acc => acc
  | fuel + 1, n, acc =>
    let d := Char.ofNat (48 + n % 10)
    if n < 10 then d :: acc else natDecimalAux fuel (n / 10) (d :: acc)

/-- Decimal rendering of a natural number. -/
def natDecimal (n : Nat) : List Char := natDecimalAux (n + 1) n []

/-- `strconv.Itoa`. -/
def itoa (v : Int) : List Char :=
  if v < 0 then '-' :: natDecimal v.natAbs else natDecimal v.toNat

/-- `convertInt` (lines 283-288): an int renders in decimal, a string
passes through, anything else is a failed type assertion. -/
def convertInt : GoParam → Option (List Char)
  | .intP n => some (itoa n)
  | .strP s => some s
  | _ => none

/-- `convertBool` (lines 290-298): a bool renders as "1"/"0", a string
passes through, anything else is a failed type assertion. -/
def convertBool : GoParam → Option (List Char)
  | .boolP b => some (if b then gs "1" else gs "0")
  | .strP s => some s
  | _ => none

/-- The `url.Values` form literal of `AddHost` (lines 586-605), including
the deletion of `sendsmtp` when its rendered value is "0".  `none` models
a panic in one of the type assertions. -/
def buildAddForm (name domain ip : List Char) (params : Params) : Option FormMap :=
  match convertInt (tryParam params (gs "ttl") (.strP [])),
      asStringP (tryParam params (gs "mac") (.strP [])),
      convertInt (tryParam params (gs "iddhcpprof") (.intP 0)),
      asStringP (tryParam params (gs "hinfo") (.strP (gs "PC/Unix"))),
      asStringP (tryParam params (gs "comment") (.strP [])),
      asStringP (tryParam params (gs "respname") (.strP [])),
      asStringP (tryParam params (gs "respmail") (.strP [])),
      convertBool (tryParam params (gs "sendsmtp") (.boolP false)) with
  | some ttl, some mac, some dhcp, some hinfo, some comment, some respname,
      some respmail, some sendsmtp =>
    let fd : FormMap :=
      [(gs "action", gs "add-host"), (gs "idview", gs "1"), (gs "addr", ip),
       (gs "name", name), (gs "domain", domain), (gs "naddr", gs "1"),
       (gs "confirm", gs "yes"), (gs "ttl", ttl), (gs "mac", mac),
       (gs "iddhcpprof", dhcp), (gs "hinfo", hinfo), (gs "comment", comment),
       (gs "respname", respname), (gs "respmail", respmail),
       (gs "sendsmtp", sendsmtp)]
    some (if sendsmtp = gs "0" then alDel (gs "sendsmtp") fd else fd)
  | _, _, _, _, _, _, _, _ => none

/-- The duplicate-host failure message of `AddHost` (lines 576-582). -/
def dupHostMsg (fqdn : List Char) : List Char :=
  gs "host " ++ [aposChar] ++ fqdn ++ [aposChar] ++
  gs " already declared, use `multiple` parameter to allow round-robin DNS"

/-- Outcome of `AddHost`: its returned error (if any) and whether the
creation form was POSTed to the `/add` endpoint. -/
structure AddHostRes where
  outcome : GoRes Unit
  postedAdd : Bool
deriving DecidableEq

/--
`NetmagisClient.AddHost` (src/netmagis.go lines 566-615).  `ghost` is the
outcome of the `GetHost` read (a network read against `/mod`), and
`callRes` is the oracle for the `Call` against `/add` if that POST is
issued; `postedAdd` records whether it was.
-/
def AddHost (fqdn ip : List Char) (params : Params)
    (ghost : GoRes (Option FormMap)) (callRes : GoRes (List Char)) :
    Option AddHostRes :=
  match breakDot fqdn with
  | none => none
  | some _ =>
    match ghost with
    | .err e => some ⟨.err (gs "unable to retrieve host: " ++ e), false⟩
    | .ok hostOpt =>
      let send : Option AddHostRes :=
        match breakDot fqdn with
        | none => none
        | some (name, domain) =>
          match buildAddForm name domain ip params with
          | none => none
          | some _fd =>
            match callRes with
            | .err e => some ⟨.err e, true⟩
            | .ok _ => some ⟨.ok (), true⟩
      match hostOpt with
      | some _ =>
        match asBoolP (tryParam params (gs "multiple") (.boolP false)) with
        | none => none
        | some mult =>
          if !mult then some ⟨.err (dupHostMsg fqdn), false⟩ else send
      | none => send

/-- The success predicate of `AddHost` (lines 607-609). -/
def addHostCheckFunc (body : List Char) : Bool :=
  containsSub (gs "Host has been added.") body

/-- A pending form submission: target path, payload, success predicate. -/
structure OpRequest where
  path : List Char
  form : FormMap
  check : List Char → Bool

/-- `NetmagisClient.DelHost` (src/netmagis.go lines 650-665), as the
request it hands to `Call`. -/
def DelHost (fqdn : List Char) : Option OpRequest :=
  match breakDot fqdn with
  | none => none
  | some (name, domain) =>
    some
      { path := gs "/del",
        form := [(gs "idviews", gs "1"), (gs "name", name), (gs "domain", domain)],
        check := fun body => containsSub (gs "has been removed") body }

/-- `NetmagisClient.AddAlias` (src/netmagis.go lines 667-687), as the
request it hands to `Call`. -/
def AddAlias (cname data : List Char) : Option OpRequest :=
  match breakDot cname, breakDot data with
  | some (cnameName, cnameDomain), some (dataName, dataDomain) =>
    some
      { path := gs "/del",
        form :=
          [(gs "action", gs "add-alias"), (gs "name", cnameName),
           (gs "domain", cnameDomain), (gs "nameref", dataName),
           (gs "domainref", dataDomain), (gs "idview", gs "1")],
        check := fun body => containsSub (gs "The alias has been added") body }
  | _, _ => none

/-
CasClient.Login, post-credential steps (src/cas.go lines 85-120).  The
compiled pattern

  loginErrorRegexp = `<span>Authentication attempt has failed, likely due to invalid ',
		'credentials. Please verify and try again. </span>`

is a raw string spanning two source lines: the pattern contains a literal
newline followed by two tabs, and its only metacharacters are the `.`
wildcards (which do not match a newline).
-/

/-- The literal text of `loginErrorRegexp`, with `.` as wildcard. -/
def loginFailPattern : List Char :=
  gs "<span>Authentication attempt has failed, likely due to invalid " ++
  [aposChar, ','] ++ [nlChar, tabChar, tabChar] ++ [aposChar] ++
  gs "credentials. Please verify and try again. </span>"

/-- Match a dot-wildcard pattern at the head of the input. -/
def wildMatchAt : List Char → List Char → Bool
  | [], _ => true
  | _ :: _, [] => false
  | p :: ps, c :: cs => (if p = '.' then decide (c ≠ nlChar) else decide (p = c)) && wildMatchAt ps cs

/-- Match a dot-wildcard pattern anywhere in the input
(`loginErrorRegexp.Match`). -/
def wildMatch (pat : List Char) (s : List Char) : Bool :=
  scanAny (fun r => wildMatchAt pat r) s

/-- An HTTP response as seen by `CasClient.Login`: its body and the values
of its `Location` header. -/
structure HResp where
  body : List Char
  location : List (List Char)

/--
`CasClient.Login` after a successful credential POST (src/cas.go lines
99-119).  `postResp` is the POST response; `cbRes` is the transport oracle
for the callback GET.  The result pairs Login's return value with the list
of callback URLs GETed; `none` models the panic of indexing
`res.Header["Location"][0]` when the header is absent.
-/
def LoginAfterPost (postResp : HResp) (cbRes : GoRes Unit) :
    Option (GoRes Unit × List (List Char)) :=
  if wildMatch loginFailPattern postResp.body then
    some (.err (gs "invalid login or password"), [])
  else
    match postResp.location.head? with
    | none => none
    | some loc =>
      match cbRes with
      | .err e => some (.err (gs "login call back error: " ++ e), [loc])
      | .ok _ => some (.ok (), [loc])

/-
Helper lemmas.
-/

theorem dotSplit_ne_nil (s : List Char) : dotSplit s ≠ [] := by
  induction s with
  | nil => simp [dotSplit]
  | cons c t ih =>
    by_cases hc : c = '.'
    · simp [dotSplit, hc]
    · simp only [dotSplit, if_neg hc]
      cases h : dotSplit t with
      | nil => simp
      | cons a l => simp

theorem joinDots_dotSplit (s : List Char) : joinDots (dotSplit s) = s := by
  induction s with
  | nil => rfl
  | cons c t ih =>
    by_cases hc : c = '.'
    · subst hc
      simp only [dotSplit, if_pos rfl]
      cases h : dotSplit t with
      | nil => exact absurd h (dotSplit_ne_nil t)
      | cons a l =>
        rw [h] at ih
        show [] ++ '.' :: joinDots (a :: l) = '.' :: t
        rw [List.nil_append, ih]
    · simp only [dotSplit, if_neg hc]
      cases h : dotSplit t with
      | nil => exact absurd h (dotSplit_ne_nil t)
      | cons a l =>
        rw [h] at ih
        cases l with
        | nil =>
          show c :: a = c :: t
          rw [show a = joinDots [a] from rfl, ih]
        | cons q r =>
          show (c :: a) ++ '.' :: joinDots (q :: r) = c :: t
          rw [List.cons_append]
          exact congrArg (c :: ·) ih

theorem dotSplit_head_no_dot (s : List Char) :
    ∀ h r, dotSplit s = h :: r → '.' ∉ h := by
  induction s with
  | nil =>
    intro h r he
    simp only [dotSplit] at he
    cases he
    simp
  | cons c t ih =>
    intro h r he
    by_cases hc : c = '.'
    · simp only [dotSplit, if_pos hc] at he
      cases he
      simp
    · simp only [dotSplit, if_neg hc] at he
      cases ht : dotSplit t with
      | nil => exact absurd ht (dotSplit_ne_nil t)
      | cons a l =>
        rw [ht] at he
        injection he with hh hr
        subst hh
        intro hmem
        rcases List.mem_cons.mp hmem with h1 | h2
        · exact hc h1.symm
        · exact ih a l ht h2

theorem breakDot_of_dotSplit (s : List Char) :
    ∀ h r1 rs, dotSplit s = h :: r1 :: rs →
      breakDot s = some (h, joinDots (r1 :: rs)) := by
  induction s with
  | nil =>
    intro h r1 rs he
    simp only [dotSplit] at he
    cases he
  | cons c t ih =>
    intro h r1 rs he
    by_cases hc : c = '.'
    · simp only [dotSplit, if_pos hc] at he
      injection he with h1 h2
      subst h1
      rw [← h2, joinDots_dotSplit]
      simp [breakDot, hc]
    · simp only [dotSplit, if_neg hc] at he
      cases ht : dotSplit t with
      | nil => exact absurd ht (dotSplit_ne_nil t)
      | cons a l =>
        rw [ht] at he
        injection he with h1 h2
        subst h2
        simp only [breakDot, if_neg hc]
        rw [ih a r1 rs ht]
        simp [← h1]

theorem alGet_cons_ne {α : Type} (k k2 : List Char) (v : α)
    (l : List (List Char × α)) (h : k2 ≠ k) :
    alGet k ((k2, v) :: l) = alGet k l := by
  simp [alGet, h]

theorem alGet_alDel {α : Type} (k : List Char) (l : List (List Char × α)) :
    alGet k (alDel k l) = none := by
  induction l with
  | nil => rfl
  | cons p t ih =>
    by_cases hp : p.1 = k
    · simpa [alDel, hp] using ih
    · simpa [alDel, hp, alGet] using ih

/--
Claim C6: for every valid fully-qualified name `n` (one accepted by
`fqdnRegexp`), `splitFqdn n` returns a pair `(label, remainder)` such that
`label ++ "." ++ remainder = n` and `label` contains no `"."` separator.
-/
theorem splitFqdn_valid_split (n : List Char) (h : checkFqdn n = true) :
    ∃ label remainder,
      breakDot n = some (label, remainder) ∧
      label ++ '.' :: remainder = n ∧
      '.' ∉ label := by
  unfold checkFqdn at h
  cases hd : dotSplit n with
  | nil => exact absurd hd (dotSplit_ne_nil n)
  | cons p0 rest =>
    rw [hd] at h
    have hlen : 2 ≤ rest.length := by
      simp only [Bool.and_eq_true, decide_eq_true_eq] at h
      exact h.1.1.2
    cases rest with
    | nil => simp at hlen
    | cons r1 rest2 =>
      cases rest2 with
      | nil => simp at hlen
      | cons r2 rs =>
        refine ⟨p0, joinDots (r1 :: r2 :: rs), ?_, ?_, ?_⟩
        · exact breakDot_of_dotSplit n p0 r1 (r2 :: rs) hd
        · have := joinDots_dotSplit n
          rw [hd] at this
          exact this
        · exact dotSplit_head_no_dot n p0 (r1 :: r2 :: rs) hd

/-- Witness for claim C6 at the concrete name `host.example.com`. -/
theorem splitFqdn_valid_split_witness :
    checkFqdn (gs "host.example.com") = true ∧
    ∃ label remainder,
      breakDot (gs "host.example.com") = some (label, remainder) ∧
      label ++ '.' :: remainder = gs "host.example.com" ∧
      '.' ∉ label :=
  ⟨by decide, splitFqdn_valid_split (gs "host.example.com") (by decide)⟩

/--
Claim C1: `Call` classifies every response body in this precedence order:
a body containing the fixed error-banner marker yields a server-rejection
error whose message is the bracketed error block's submatch stripped of
surrounding quote characters; otherwise a body accepted by the success
predicate is returned as-is; otherwise the result is an
unexpected-response error preserving the raw body verbatim — a body with
no banner and no matching confirmation is never treated as success.
-/
theorem call_classification (body : List Char) (validateFunc : List Char → Bool) :
    (∀ m, containsSub errBanner body = true → extractError body = some m →
      Call body validateFunc = some (.err (gs "NetmagisError: " ++ trimQuotes m))) ∧
    (containsSub errBanner body = false → validateFunc body = true →
      Call body validateFunc = some (.ok body)) ∧
    (containsSub errBanner body = false → validateFunc body = false →
      Call body validateFunc =
        some (.err (gs "ValidationError: unexpected output (raw HTML answer for debug): " ++ body))) ∧
    (∀ b, Call body validateFunc = some (.ok b) →
      containsSub errBanner body = false ∧ validateFunc body = true ∧ b = body) := by
  refine ⟨?_, ?_, ?_, ?_⟩
  · intro m h1 h2
    simp [Call, h1, h2]
  · intro h1 h2
    simp [Call, h1, h2]
  · intro h1 h2
    simp [Call, h1, h2]
  · intro b hb
    by_cases h1 : containsSub errBanner body
    · cases h2 : extractError body with
      | none => simp [Call, h1, h2] at hb
      | some m => simp [Call, h1, h2] at hb
    · by_cases h2 : validateFunc body
      · simp only [Call, h1, Bool.false_eq_true, if_false, h2, if_true] at hb
        injection hb with hb1
        injection hb1 with hb2
        exact ⟨by simp [h1], h2, hb2.symm⟩
      · simp [Call, h1, h2] at hb

/-- Witness for claim C1: each branch of `call_classification` exercised
at a concrete body. -/
theorem call_classification_witness :
    Call (errBanner ++ bqOpen ++ [quoteChar] ++ gs "msg" ++ [quoteChar] ++ bqClose)
        (fun _ => false) =
      some (.err (gs "NetmagisError: " ++
        trimQuotes ([quoteChar] ++ gs "msg" ++ [quoteChar]))) ∧
    Call (gs "Host has been added.") (fun _ => true) =
      some (.ok (gs "Host has been added.")) ∧
    Call (gs "mystery body") (fun _ => false) =
      some (.err (gs "ValidationError: unexpected output (raw HTML answer for debug): " ++
        gs "mystery body")) ∧
    (containsSub errBanner (gs "plain") = false ∧ (fun (_ : List Char) => true) (gs "plain") = true ∧
      gs "plain" = gs "plain") :=
  ⟨(call_classification _ _).1 ([quoteChar] ++ gs "msg" ++ [quoteChar]) (by decide) (by decide),
   (call_classification _ _).2.1 (by decide) rfl,
   (call_classification _ _).2.2.1 (by decide) rfl,
   (call_classification (gs "plain") (fun _ => true)).2.2.2 (gs "plain") (by decide)⟩

/--
Claim C9: `Call`'s error-message extraction is only well-defined when
every body containing the banner marker also matches the blockquote error
pattern: on a body containing the marker for which the pattern finds no
match, the Go code indexes element 1 of a nil `FindSubmatch` result (a
runtime panic, modelled as `none`).
-/
theorem call_extraction_undefined (body : List Char) (validateFunc : List Char → Bool)
    (h1 : containsSub errBanner body = true) (h2 : extractError body = none) :
    Call body validateFunc = none := by
  simp [Call, h1, h2]

/-- Witness for claim C9: the bare banner body contains the marker, the
blockquote pattern finds no match, and `Call` is undefined there. -/
theorem call_extraction_undefined_witness :
    Call errBanner (fun _ => true) = none :=
  call_extraction_undefined errBanner (fun _ => true) (by decide) (by decide)

/-- The field keys given special coercions by the `switch` of `Search`. -/
def specialFields : List (List Char) :=
  [gs "smtp_emit_right", gs "dhcp_profile", gs "ttl", gs "aliases", gs "allowed_groups"]

/--
Claim C2: `Search`'s table-scrape decoding walks the alternating
label/value cell sequence pairwise, normalizing each even-indexed cell
into a field key (trim, drop parentheses, spaces to underscores,
lower-case) and coercing each odd-indexed value per field:
`smtp_emit_right` maps "Yes" to true and "No"/empty to false; `ttl`
parses as a decimal integer with parse failure yielding zero; the
"No profile" sentinel maps to an empty profile; `aliases` and
`allowed_groups` split on the space separator; any other key stores the
literal trimmed text; and `is_alias` is set to true exactly when the
queried identifier differs from the decoded name.
-/
theorem search_table_decode (host f v : List Char) (cells : List (List Char)) (m : HostMap) :
    (decodeCells (f :: v :: cells) m =
      decodeCells cells
        (alUpd (normalizeField f) (coerceValue (normalizeField f) (nodeText v)) m)) ∧
    (normalizeField f =
      ((((nodeText f).filter (fun c => decide (c ≠ '('))).filter
          (fun c => decide (c ≠ ')'))).map (fun c => if c = ' ' then '_' else c)).map
        Char.toLower) ∧
    (coerceValue (gs "smtp_emit_right") (gs "Yes") = .boolV true) ∧
    (coerceValue (gs "smtp_emit_right") (gs "No") = .boolV false) ∧
    (coerceValue (gs "smtp_emit_right") [] = .boolV false) ∧
    (coerceValue (gs "ttl") v = .intV (goAtoi v)) ∧
    (atoiWellFormed v = false → coerceValue (gs "ttl") v = .intV 0) ∧
    (coerceValue (gs "dhcp_profile") (gs "No profile") = .strV []) ∧
    (v ≠ gs "No profile" → coerceValue (gs "dhcp_profile") v = .strV v) ∧
    (coerceValue (gs "aliases") v = .listV (v.splitOn ' ')) ∧
    (coerceValue (gs "allowed_groups") v = .listV (v.splitOn ' ')) ∧
    (f ∉ specialFields → coerceValue f v = .strV v) ∧
    (searchDecode host cells =
      alUpd (gs "is_alias") (.boolV (searchIsAlias host (decodeCells cells [])))
        (decodeCells cells [])) ∧
    (∀ n, alGet (gs "name") m = some (.strV n) →
      (searchIsAlias host m = true ↔ host ≠ n)) := by
  refine ⟨rfl, rfl, by decide, by decide, by decide, rfl, ?_, rfl, ?_, rfl, rfl, ?_, rfl, ?_⟩
  · intro h
    simp [coerceValue, goAtoi, h]
    rw [if_neg (by decide), if_neg (by decide)]
  · intro h
    simp [coerceValue, h]
    decide
  · intro h
    simp only [specialFields, List.mem_cons, List.mem_singleton, not_or] at h
    obtain ⟨h1, h2, h3, h4, h5⟩ := h
    simp [coerceValue, h1, h2, h3, h4, h5]
  · intro n hn
    simp [searchIsAlias, hn]

/-- Witness for claim C2: the hypothesis-guarded branches of
`search_table_decode` exercised at concrete inputs. -/
theorem search_table_decode_witness :
    (coerceValue (gs "ttl") (gs "12ab") = .intV 0) ∧
    (coerceValue (gs "dhcp_profile") (gs "profile1") = .strV (gs "profile1")) ∧
    (coerceValue (gs "mac") (gs "aa:bb:cc") = .strV (gs "aa:bb:cc")) ∧
    (searchIsAlias (gs "www.ex.com") [(gs "name", .strV (gs "h.ex.com"))] = true ↔
      gs "www.ex.com" ≠ gs "h.ex.com") :=
  ⟨(search_table_decode [] [] (gs "12ab") [] []).2.2.2.2.2.2.1 (by decide),
   (search_table_decode [] [] (gs "profile1") [] []).2.2.2.2.2.2.2.2.1 (by decide),
   (search_table_decode [] (gs "mac") (gs "aa:bb:cc") [] []).2.2.2.2.2.2.2.2.2.2.2.1 (by decide),
   (search_table_decode (gs "www.ex.com") [] [] []
      [(gs "name", .strV (gs "h.ex.com"))]).2.2.2.2.2.2.2.2.2.2.2.2.2
      (gs "h.ex.com") (by decide)⟩

/--
Claim C3: `AddHost` called for an fqdn whose record already exists,
without the multiple-allowed option set in params, fails with the
duplicate-host error and never POSTs the creation form to the `/add`
endpoint.
-/
theorem addhost_duplicate_guard (fqdn ip : List Char) (params : Params)
    (existing : FormMap) (callRes : GoRes (List Char)) (pr : List Char × List Char)
    (hsplit : breakDot fqdn = some pr)
    (hmult : asBoolP (tryParam params (gs "multiple") (.boolP false)) = some false) :
    AddHost fqdn ip params (.ok (some existing)) callRes =
      some ⟨.err (dupHostMsg fqdn), false⟩ := by
  simp [AddHost, hsplit, hmult]

/-- Witness for claim C3: a concrete duplicate create without the
`multiple` option errs and issues no POST to `/add`. -/
theorem addhost_duplicate_guard_witness :
    AddHost (gs "h.ex.com") (gs "1.2.3.4") [] (.ok (some [])) (.ok []) =
      some ⟨.err (dupHostMsg (gs "h.ex.com")), false⟩ :=
  addhost_duplicate_guard (gs "h.ex.com") (gs "1.2.3.4") [] [] (.ok [])
    (gs "h", gs "ex.com") (by decide) (by decide)

/--
Claim C4: for every params map, the payload `AddHost` builds omits the
`sendsmtp` field entirely when the smtp flag is absent or false, and
includes `sendsmtp` with value "1" when the smtp flag is true.
-/
theorem addhost_sendsmtp_payload (name domain ip : List Char) (params : Params)
    (fd : FormMap) (hfd : buildAddForm name domain ip params = some fd) :
    ((alGet (gs "sendsmtp") params = none ∨
        alGet (gs "sendsmtp") params = some (.boolP false)) →
      alGet (gs "sendsmtp") fd = none) ∧
    (alGet (gs "sendsmtp") params = some (.boolP true) →
      alGet (gs "sendsmtp") fd = some (gs "1")) := by
  rw [buildAddForm] at hfd
  cases h1 : convertInt (tryParam params (gs "ttl") (.strP [])) with
  | none => rw [h1] at hfd; exact absurd hfd (by simp)
  | some ttl =>
  cases h2 : asStringP (tryParam params (gs "mac") (.strP [])) with
  | none => rw [h1, h2] at hfd; exact absurd hfd (by simp)
  | some mac =>
  cases h3 : convertInt (tryParam params (gs "iddhcpprof") (.intP 0)) with
  | none => rw [h1, h2, h3] at hfd; exact absurd hfd (by simp)
  | some dhcp =>
  cases h4 : asStringP (tryParam params (gs "hinfo") (.strP (gs "PC/Unix"))) with
  | none => rw [h1, h2, h3, h4] at hfd; exact absurd hfd (by simp)
  | some hinfo =>
  cases h5 : asStringP (tryParam params (gs "comment") (.strP [])) with
  | none => rw [h1, h2, h3, h4, h5] at hfd; exact absurd hfd (by simp)
  | some comment =>
  cases h6 : asStringP (tryParam params (gs "respname") (.strP [])) with
  | none => rw [h1, h2, h3, h4, h5, h6] at hfd; exact absurd hfd (by simp)
  | some respname =>
  cases h7 : asStringP (tryParam params (gs "respmail") (.strP [])) with
  | none => rw [h1, h2, h3, h4, h5, h6, h7] at hfd; exact absurd hfd (by simp)
  | some respmail =>
  cases h8 : convertBool (tryParam params (gs "sendsmtp") (.boolP false)) with
  | none => rw [h1, h2, h3, h4, h5, h6, h7, h8] at hfd; exact absurd hfd (by simp)
  | some sendsmtp =>
    rw [h1, h2, h3, h4, h5, h6, h7, h8] at hfd
    simp only [Option.some.injEq] at hfd
    constructor
    · intro hp
      have hss : sendsmtp = gs "0" := by
        rcases hp with hp | hp <;>
          · rw [tryParam, hp] at h8
            simp [convertBool] at h8
            exact h8.symm
      rw [hss, if_pos rfl] at hfd
      rw [← hfd]
      exact alGet_alDel (gs "sendsmtp") _
    · intro hp
      have hss : sendsmtp = gs "1" := by
        rw [tryParam, hp] at h8
        simp [convertBool] at h8
        exact h8.symm
      rw [hss, if_neg (by decide)] at hfd
      rw [← hfd]
      rw [alGet_cons_ne _ _ _ _ (by decide), alGet_cons_ne _ _ _ _ (by decide),
        alGet_cons_ne _ _ _ _ (by decide), alGet_cons_ne _ _ _ _ (by decide),
        alGet_cons_ne _ _ _ _ (by decide), alGet_cons_ne _ _ _ _ (by decide),
        alGet_cons_ne _ _ _ _ (by decide), alGet_cons_ne _ _ _ _ (by decide),
        alGet_cons_ne _ _ _ _ (by decide), alGet_cons_ne _ _ _ _ (by decide),
        alGet_cons_ne _ _ _ _ (by decide), alGet_cons_ne _ _ _ _ (by decide),
        alGet_cons_ne _ _ _ _ (by decide), alGet_cons_ne _ _ _ _ (by decide)]
      simp [alGet]

/-- The `/add` payload `AddHost` builds for empty params (smtp flag
absent). -/
def addFormNoSmtp : FormMap :=
  [(gs "action", gs "add-host"), (gs "idview", gs "1"), (gs "addr", gs "1.2.3.4"),
   (gs "name", gs "h"), (gs "domain", gs "ex.com"), (gs "naddr", gs "1"),
   (gs "confirm", gs "yes"), (gs "ttl", []), (gs "mac", []),
   (gs "iddhcpprof", gs "0"), (gs "hinfo", gs "PC/Unix"), (gs "comment", []),
   (gs "respname", []), (gs "respmail", [])]

/-- The `/add` payload `AddHost` builds when the smtp flag is true. -/
def addFormSmtp : FormMap :=
  addFormNoSmtp ++ [(gs "sendsmtp", gs "1")]

/-- Witness for claim C4: with the smtp flag absent the built payload has
no `sendsmtp` key, and with the flag true it carries "1". -/
theorem addhost_sendsmtp_payload_witness :
    alGet (gs "sendsmtp") addFormNoSmtp = none ∧
    alGet (gs "sendsmtp") addFormSmtp = some (gs "1") :=
  ⟨(addhost_sendsmtp_payload (gs "h") (gs "ex.com") (gs "1.2.3.4") [] addFormNoSmtp
      (by decide)).1 (Or.inl (by decide)),
   (addhost_sendsmtp_payload (gs "h") (gs "ex.com") (gs "1.2.3.4")
      [(gs "sendsmtp", .boolP true)] addFormSmtp (by decide)).2 (by decide)⟩

/--
Claim C5: a response that signals the record is absent yields an absent
result (nil record, nil error), never an error: `Search` on a banner-free
body matching the not-found marker returns `nil`, and `GetHost`
translates a server rejection whose message matches
`Name '...' does not exist` into `nil` rather than propagating the error.
-/
theorem absent_record_nil :
    (∀ (ipOk : Bool) (host body : List Char) (cells : List (List Char)),
      (ipOk = true ∨ checkFqdn host = true) →
      containsSub errBanner body = false →
      hostNotFoundMatch body = true →
      Search ipOk host body cells = some (.ok none)) ∧
    (∀ (fqdn body : List Char) (inputs : List AttrList) (selects : List SelNode)
        (pr : List Char × List Char) (e : List Char),
      breakDot fqdn = some pr →
      Call body (fun _ => true) = some (.err e) →
      nameNotExistMatch e = true →
      GetHost fqdn body inputs selects = some (.ok none)) := by
  constructor
  · intro ipOk host body cells hin hnb hnf
    have hcall : Call body searchCheckFunc = some (.ok body) := by
      simp [Call, hnb, searchCheckFunc, hnf]
    rcases hin with hin | hin <;>
      simp [Search, hin, hcall, hnf]
  · intro fqdn body inputs selects pr e hsplit hcall hmatch
    simp [GetHost, hsplit, hcall, hmatch]

/-- The canned not-found search body used by the claim C5 witness. -/
def notFoundBody : List Char :=
  gs "<html>String " ++ [aposChar] ++ gs "h.example.com" ++ [aposChar] ++
  gs " not found</html>"

/-- The canned `/mod` error body used by the claim C5 witness: an error
banner whose blockquote message is `"Name 'h.ex.com' does not exist"`. -/
def nameNotExistBody : List Char :=
  errBanner ++ bqOpen ++ [quoteChar] ++ gs "Name " ++ [aposChar] ++ gs "h.ex.com" ++
  [aposChar] ++ gs " does not exist" ++ [quoteChar] ++ bqClose

/-- The server-rejection message `Call` extracts from `nameNotExistBody`. -/
def nameNotExistErr : List Char :=
  gs "NetmagisError: Name " ++ [aposChar] ++ gs "h.ex.com" ++ [aposChar] ++
  gs " does not exist"

/-- Witness for claim C5: a concrete not-found search body decodes to an
absent record, and a concrete name-does-not-exist rejection makes
`GetHost` return an absent record. -/
theorem absent_record_nil_witness :
    Search false (gs "hh.example.com") notFoundBody [] = some (.ok none) ∧
    GetHost (gs "h.ex.com") nameNotExistBody [] [] = some (.ok none) :=
  ⟨absent_record_nil.1 false (gs "hh.example.com") notFoundBody []
      (Or.inr (by decide)) (by decide) (by decide),
   absent_record_nil.2 (gs "h.ex.com") nameNotExistBody [] []
      (gs "h", gs "ex.com") nameNotExistErr (by decide) (by decide) (by decide)⟩

/--
Claim C8: in the credential-submission step of the CAS handshake, when
the POST response does not match the authentication-failed pattern, the
client GETs the Location-header callback URL exactly once, and a
transport error on that callback leg makes the handshake fail with the
callback-failure error returned to the caller.
-/
theorem cas_login_callback (postResp : HResp) (cbRes : GoRes Unit)
    (loc : List Char) (rest : List (List Char))
    (hfail : wildMatch loginFailPattern postResp.body = false)
    (hloc : postResp.location = loc :: rest) :
    (∃ r, LoginAfterPost postResp cbRes = some (r, [loc])) ∧
    (∀ e, cbRes = .err e →
      LoginAfterPost postResp cbRes =
        some (.err (gs "login call back error: " ++ e), [loc])) := by
  constructor
  · cases cbRes with
    | err e => exact ⟨.err (gs "login call back error: " ++ e), by simp [LoginAfterPost, hfail, hloc]⟩
    | ok v => exact ⟨.ok (), by simp [LoginAfterPost, hfail, hloc]⟩
  · intro e he
    subst he
    simp [LoginAfterPost, hfail, hloc]

/-- Witness for claim C8: a concrete successful-credentials POST response
followed by a failing callback GET. -/
theorem cas_login_callback_witness :
    (∃ r, LoginAfterPost ⟨gs "welcome", [gs "http://app/start"]⟩ (.err (gs "boom")) =
      some (r, [gs "http://app/start"])) ∧
    LoginAfterPost ⟨gs "welcome", [gs "http://app/start"]⟩ (.err (gs "boom")) =
      some (.err (gs "login call back error: boom"), [gs "http://app/start"]) :=
  ⟨(cas_login_callback ⟨gs "welcome", [gs "http://app/start"]⟩ (.err (gs "boom"))
      (gs "http://app/start") [] (by decide) rfl).1,
   (cas_login_callback ⟨gs "welcome", [gs "http://app/start"]⟩ (.err (gs "boom"))
      (gs "http://app/start") [] (by decide) rfl).2 (gs "boom") rfl⟩

/--
Counterexample for claim C7 as stated: this input node named `sendsmtp`
carries a `checked` attribute (the checked-state marker), yet the decoder
records "0" — the code only records "1" when the node has exactly four
attributes and the fourth's key is `checked`.
-/
theorem gethost_checked_marker_cex :
    hasAttrKey (gs "checked") [(gs "name", gs "sendsmtp"), (gs "checked", [])] = true ∧
    getHostDecode [[(gs "name", gs "sendsmtp"), (gs "checked", [])]] [] =
      [(gs "sendsmtp", gs "0")] := by
  decide

/--
Claim C7 (amended): `GetHost`'s form-scrape decoding skips input nodes
whose name is empty, `action`, or `confirm`; for the `sendsmtp` checkbox
it records "1" exactly when the node has exactly four attributes of which
the fourth's key is `checked`, and "0" otherwise; it records every other
input's `value` attribute verbatim under its name; for each select it
records the `value` of the first option having exactly two attributes of
which the second's key is `selected`; and when no option of the
`iddhcpprof` select satisfies that condition, it defaults the field to
"0" (a select of any other name is left unset).
-/
theorem gethost_form_decode (m : FormMap) (attrs : AttrList) (sel : SelNode)
    (inputs : List AttrList) (selects : List SelNode) :
    (selAttr attrs (gs "name") = [] ∨ selAttr attrs (gs "name") = gs "action" ∨
        selAttr attrs (gs "name") = gs "confirm" → procInput m attrs = m) ∧
    (selAttr attrs (gs "name") = gs "sendsmtp" → checkedCond attrs = true →
      procInput m attrs = alUpd (gs "sendsmtp") (gs "1") m) ∧
    (selAttr attrs (gs "name") = gs "sendsmtp" → checkedCond attrs = false →
      procInput m attrs = alUpd (gs "sendsmtp") (gs "0") m) ∧
    (checkedCond attrs = true ↔
      ∃ a1 a2 a3 v4, attrs = [a1, a2, a3, (gs "checked", v4)]) ∧
    (∀ nm, selAttr attrs (gs "name") = nm → nm ≠ [] → nm ≠ gs "action" →
      nm ≠ gs "confirm" → nm ≠ gs "sendsmtp" →
      procInput m attrs = alUpd nm (selAttr attrs (gs "value")) m) ∧
    (∀ v, firstSelected sel.opts = some v →
      procSelect m sel = alUpd (selAttr sel.attrs (gs "name")) v m) ∧
    (firstSelected sel.opts = none → selAttr sel.attrs (gs "name") = gs "iddhcpprof" →
      procSelect m sel = alUpd (gs "iddhcpprof") (gs "0") m) ∧
    (firstSelected sel.opts = none → selAttr sel.attrs (gs "name") ≠ gs "iddhcpprof" →
      procSelect m sel = m) ∧
    (∀ o, optSelected o = true ↔ ∃ a1 v2, o = [a1, (gs "selected", v2)]) ∧
    (getHostDecode inputs selects = selects.foldl procSelect (inputs.foldl procInput [])) := by
  refine ⟨?_, ?_, ?_, ?_, ?_, ?_, ?_, ?_, ?_, rfl⟩
  · intro h
    rcases h with h | h | h <;> simp [procInput, h]
  · intro h1 h2
    simp [procInput, h1, h2]
    intro h
    exact absurd h (by decide)
  · intro h1 h2
    simp [procInput, h1, h2]
    intro h
    exact absurd h (by decide)
  · constructor
    · intro h
      rcases attrs with _ | ⟨a1, _ | ⟨a2, _ | ⟨a3, _ | ⟨a4, _ | ⟨a5, rest⟩⟩⟩⟩⟩ <;>
        simp [checkedCond] at h
      obtain ⟨k4, v4⟩ := a4
      simp only [decide_eq_true_eq] at h
      exact ⟨a1, a2, a3, v4, by rw [show k4 = gs "checked" from h]⟩
    · rintro ⟨a1, a2, a3, v4, rfl⟩
      simp [checkedCond]
  · intro nm h0 h1 h2 h3 h4
    simp [procInput, h0, h1, h2, h3, h4]
  · intro v hv
    simp [procSelect, hv]
  · intro h1 h2
    simp [procSelect, h1, h2]
  · intro h1 h2
    simp [procSelect, h1, h2]
  · intro o
    constructor
    · intro h
      rcases o with _ | ⟨a1, _ | ⟨a2, _ | ⟨a3, rest⟩⟩⟩ <;> simp [optSelected] at h
      obtain ⟨k2, v2⟩ := a2
      simp only [decide_eq_true_eq] at h
      exact ⟨a1, v2, by rw [show k2 = gs "selected" from h]⟩
    · rintro ⟨a1, v2, rfl⟩
      simp [optSelected]

/-- A canned checked `sendsmtp` input node (the four-attribute shape the
code accepts). -/
def smtpCheckedNode : AttrList :=
  [(gs "type", gs "checkbox"), (gs "name", gs "sendsmtp"),
   (gs "value", gs "1"), (gs "checked", [])]

/-- A canned select node named `iddhcpprof` with no selected option. -/
def dhcpSelNode : SelNode :=
  ⟨[(gs "name", gs "iddhcpprof")], [[(gs "value", gs "3")]]⟩

/-- Witness for claim C7 (amended): the branches of `gethost_form_decode`
exercised at concrete nodes. -/
theorem gethost_form_decode_witness :
    procInput [] [(gs "name", gs "action"), (gs "value", gs "edit")] = [] ∧
    procInput [] smtpCheckedNode = [(gs "sendsmtp", gs "1")] ∧
    procInput [] [(gs "name", gs "sendsmtp"), (gs "checked", [])] =
      [(gs "sendsmtp", gs "0")] ∧
    procInput [] [(gs "name", gs "mac"), (gs "value", gs "aa:bb")] =
      [(gs "mac", gs "aa:bb")] ∧
    procSelect [] ⟨[(gs "name", gs "iddhcpprof")],
      [[(gs "value", gs "7"), (gs "selected", [])]]⟩ =
      [(gs "iddhcpprof", gs "7")] ∧
    procSelect [] dhcpSelNode = [(gs "iddhcpprof", gs "0")] ∧
    procSelect [] ⟨[(gs "name", gs "other")], []⟩ = [] :=
  ⟨(gethost_form_decode [] [(gs "name", gs "action"), (gs "value", gs "edit")]
      dhcpSelNode [] []).1 (Or.inr (Or.inl (by decide))),
   (gethost_form_decode [] smtpCheckedNode dhcpSelNode [] []).2.1 (by decide) (by decide),
   (gethost_form_decode [] [(gs "name", gs "sendsmtp"), (gs "checked", [])]
      dhcpSelNode [] []).2.2.1 (by decide) (by decide),
   (gethost_form_decode [] [(gs "name", gs "mac"), (gs "value", gs "aa:bb")]
      dhcpSelNode [] []).2.2.2.2.1 (gs "mac") (by decide) (by decide) (by decide)
      (by decide) (by decide),
   (gethost_form_decode [] [] ⟨[(gs "name", gs "iddhcpprof")],
      [[(gs "value", gs "7"), (gs "selected", [])]]⟩ [] []).2.2.2.2.2.1
      (gs "7") (by decide),
   (gethost_form_decode [] [] dhcpSelNode [] []).2.2.2.2.2.2.1 (by decide) (by decide),
   (gethost_form_decode [] [] ⟨[(gs "name", gs "other")], []⟩ [] []).2.2.2.2.2.2.2.1
      (by decide) (by decide)⟩

/--
Claim C10: for every pair of alias and target fully-qualified names,
`AddAlias` submits its alias-creation form (action `add-alias` with the
split name/domain pairs) to the relative path `/del` — the same endpoint
path `DelHost` uses for deletion — while its success predicate requires
the alias-added confirmation phrase.
-/
theorem addalias_posts_to_del (cname data : List Char)
    (pc pd : List Char × List Char)
    (hc : breakDot cname = some pc) (hd : breakDot data = some pd) :
    ∃ req, AddAlias cname data = some req ∧
      req.path = gs "/del" ∧
      alGet (gs "action") req.form = some (gs "add-alias") ∧
      alGet (gs "name") req.form = some pc.1 ∧
      alGet (gs "domain") req.form = some pc.2 ∧
      alGet (gs "nameref") req.form = some pd.1 ∧
      alGet (gs "domainref") req.form = some pd.2 ∧
      alGet (gs "idview") req.form = some (gs "1") ∧
      (∀ b, req.check b = containsSub (gs "The alias has been added") b) ∧
      (∀ fqdn req2, DelHost fqdn = some req2 → req2.path = req.path) := by
  obtain ⟨cn, cd⟩ := pc
  obtain ⟨dn, dd⟩ := pd
  refine ⟨_, by rw [AddAlias, hc, hd], rfl, ?_, ?_, ?_, ?_, ?_, ?_, fun b => rfl, ?_⟩
  · rfl
  · rw [alGet_cons_ne _ _ _ _ (by decide)]
    rfl
  · rw [alGet_cons_ne _ _ _ _ (by decide), alGet_cons_ne _ _ _ _ (by decide)]
    rfl
  · rw [alGet_cons_ne _ _ _ _ (by decide), alGet_cons_ne _ _ _ _ (by decide),
      alGet_cons_ne _ _ _ _ (by decide)]
    rfl
  · rw [alGet_cons_ne _ _ _ _ (by decide), alGet_cons_ne _ _ _ _ (by decide),
      alGet_cons_ne _ _ _ _ (by decide), alGet_cons_ne _ _ _ _ (by decide)]
    rfl
  · rw [alGet_cons_ne _ _ _ _ (by decide), alGet_cons_ne _ _ _ _ (by decide),
      alGet_cons_ne _ _ _ _ (by decide), alGet_cons_ne _ _ _ _ (by decide),
      alGet_cons_ne _ _ _ _ (by decide)]
    rfl
  · intro fqdn req2 hreq
    cases hf : breakDot fqdn with
    | none => rw [DelHost, hf] at hreq; cases hreq
    | some prf =>
      rw [DelHost, hf] at hreq
      injection hreq with h2
      rw [← h2]

/-- Witness for claim C10 at concrete alias and target names, compared
with a concrete `DelHost` request. -/
theorem addalias_posts_to_del_witness :
    (∃ req, AddAlias (gs "www.ex.com") (gs "hh.ex.com") = some req ∧
      req.path = gs "/del" ∧
      alGet (gs "action") req.form = some (gs "add-alias") ∧
      alGet (gs "name") req.form = some (gs "www", gs "ex.com").1 ∧
      alGet (gs "domain") req.form = some (gs "www", gs "ex.com").2 ∧
      alGet (gs "nameref") req.form = some (gs "hh", gs "ex.com").1 ∧
      alGet (gs "domainref") req.form = some (gs "hh", gs "ex.com").2 ∧
      alGet (gs "idview") req.form = some (gs "1") ∧
      (∀ b, req.check b = containsSub (gs "The alias has been added") b) ∧
      (∀ fqdn req2, DelHost fqdn = some req2 → req2.path = req.path)) :=
  addalias_posts_to_del (gs "www.ex.com") (gs "hh.ex.com")
    (gs "www", gs "ex.com") (gs "hh", gs "ex.com") (by decide) (by decide)

end Netmagis
